import Mathlib

/-!
The container-pairing reconciler and the config materializer of fluentd-pilot.

A shallow embedding of `src/pilot/pilot.go`.  The process-wide correlation
table `containerLogs`, the file system and a record of the `newContainerLog`
invocations are threaded explicitly through the functions that the Go code
runs against global state.  The container runtime client, the template engine
and the operating system's failure modes are external collaborators and appear
as parameters.
-/

set_option autoImplicit false

namespace FluentdPilot

/-! ## Constants and data model -/

/-- Root of the fluentd configuration tree (`const FLUENTD_CONF_HOME`). -/
def FLUENTD_CONF_HOME : String := "/etc/fluentd"

/-- Label key that carries the log topic (`const LABEL_LOGS`). -/
def LABEL_LOGS : String := "logtopic"

/-- Go's `error` result: `none` is `nil`, `some msg` is an error with that message. -/
abbrev error := Option String

/-- The record `containerLogInfo` of the source; a missing field of a Go
composite literal is the empty string. -/
structure containerLogInfo where
  containerId : String
  logPath : String
  logTopic : String
  deriving DecidableEq, Repr

/-- A Go `map[string]V`: a lookup yields the value and the `ok` flag. -/
abbrev GoMap (V : Type) := String → Option V

/-- Go's `m[k] = v`. -/
def GoMap.set {V : Type} (m : GoMap V) (k : String) (v : V) : GoMap V :=
  fun k' => if k' = k then some v else m k'

/-- Go's `delete(m, k)`. -/
def GoMap.delete {V : Type} (m : GoMap V) (k : String) : GoMap V :=
  fun k' => if k' = k then none else m k'

/-- The fields of `types.ContainerState` that the pilot reads. -/
structure ContainerState where
  Status : String
  deriving DecidableEq, Repr

/-- The fields of `container.Config` that the pilot reads.  `Labels` is a Go
map; it is represented by its entries in the order in which `range` visits
them, so its keys are pairwise distinct. -/
structure ContainerConfig where
  Labels : List (String × String)
  deriving DecidableEq, Repr

/-- The fields of `types.ContainerJSON` that the pilot reads. -/
structure ContainerJSON where
  ID : String
  Path : String
  Name : String
  LogPath : String
  State : ContainerState
  Config : ContainerConfig
  deriving DecidableEq, Repr

/-- The fields of `types.Container` (an entry of `ContainerList`) that the pilot reads. -/
structure Container where
  ID : String
  State : String
  deriving DecidableEq, Repr

/-- The fields of `events.Message` that the pilot reads (`Actor.ID` and `Action`). -/
structure Message where
  ActorID : String
  Action : String
  deriving DecidableEq, Repr

/-! ## External collaborators -/

/-- A compiled `text/template`: executing it on a context map yields the text
written to the buffer and an error. -/
structure Template where
  Execute : List (String × String) → String × error

/-- The docker client calls used by the pilot. -/
structure Client where
  ContainerList : List Container × error
  ContainerInspect : String → ContainerJSON × error

/-- The `Pilot` struct of the source. -/
structure Pilot where
  tpl : Template
  dockerClient : Client

/-- An entry of the file system: a regular file with its content, or anything
else (directory, device, ...). -/
inductive Node where
  | regular (content : String)
  | other
  deriving DecidableEq, Repr

/-- The file system: what is found at each path. -/
abbrev FileSystem := String → Option Node

/-- Failure modes of the operating system that are not determined by the file
set: a write or a removal that is refused, a directory that cannot be opened,
and the directory listing. -/
structure OS where
  writeFault : String → error
  removeFault : String → error
  openFault : String → error
  Readdirnames : FileSystem → String → List String × error

/-- The error `os.Remove` and `os.Stat` report for a missing path. -/
def ErrNotExist : String := "no such file or directory"

/-- `ioutil.WriteFile`: a refused write fails atomically; a successful one
replaces whatever was at the path by a regular file holding exactly `data`. -/
def WriteFile (os : OS) (fs : FileSystem) (path data : String) : error × FileSystem :=
  match os.writeFault path with
  | some e => (some e, fs)
  | none => (none, fun q => if q = path then some (Node.regular data) else fs q)

/-- `os.Remove`: fails with a not-exist error on a missing path, may be refused
for another reason, and otherwise removes the entry. -/
def Remove (os : OS) (fs : FileSystem) (path : String) : error × FileSystem :=
  match fs path with
  | none => (some ErrNotExist, fs)
  | some _ =>
    match os.removeFault path with
    | some e => (some e, fs)
    | none => (none, fun q => if q = path then none else fs q)

/-- `os.Stat` followed by `Mode().IsRegular()`: the error, and whether the
entry is a regular file. -/
def Stat (fs : FileSystem) (path : String) : Bool × error :=
  match fs path with
  | none => (false, some ErrNotExist)
  | some (Node.regular _) => (true, none)
  | some Node.other => (false, none)

/-- The program state: the global correlation table `containerLogs`, the file
system, and `calls`, the identities passed to `newContainerLog` by
`newContainer` so far, oldest first. -/
structure World where
  containerLogs : GoMap containerLogInfo
  fs : FileSystem
  calls : List containerLogInfo

/-! ## The config materializer -/

/-- `pathOf`: `fmt.Sprintf("%s/conf.d/%s.conf", FLUENTD_CONF_HOME, container)`. -/
def pathOf (container : String) : String :=
  FLUENTD_CONF_HOME ++ "/conf.d/" ++ container ++ ".conf"

/-- `render`: execute the template on the context built from `logPath` and `logTopic`. -/
def render (p : Pilot) (logInfo : containerLogInfo) : String × error :=
  let context := [("logPath", logInfo.logPath), ("logTopic", logInfo.logTopic)]
  match p.tpl.Execute context with
  | (_, some err) => ("", some err)
  | (buf, none) => (buf, none)

/-- `newContainerLog`: render, then write the artifact. -/
def newContainerLog (p : Pilot) (os : OS) (fs : FileSystem) (logInfo : containerLogInfo) :
    error × FileSystem :=
  match render p logInfo with
  | (_, some err) => (some err, fs)
  | (fluentdConfig, none) =>
    match WriteFile os fs (pathOf logInfo.containerId) fluentdConfig with
    | (some err, fs') => (some err, fs')
    | (none, fs') => (none, fs')

/-- `delContainer`: remove the artifact, returning the error of `os.Remove`. -/
def delContainer (os : OS) (fs : FileSystem) (id : String) : error × FileSystem :=
  match Remove os fs (pathOf id) with
  | (some err, fs') => (some err, fs')
  | (none, fs') => (none, fs')

/-- The function `exists` of the source: false exactly when `os.Stat` reports
that the artifact does not exist. -/
def existsConf (fs : FileSystem) (containId : String) : Bool :=
  match Stat fs (pathOf containId) with
  | (_, some _) => false
  | (_, none) => true

/-! ## The pairing reconciler -/

/-- The label loop of `newContainer`: `topic` starts empty and takes the value
of every entry whose key is `LABEL_LOGS`. -/
def topicOf (labels : List (String × String)) : String :=
  labels.foldl (fun topic kv => if kv.1 = LABEL_LOGS then kv.2 else topic) ""

/-- The statement `p.newContainerLog(&c)` inside `newContainer`: the returned
error is discarded; the invocation is recorded in `calls`. -/
def invokeNewContainerLog (p : Pilot) (os : OS) (w : World) (c : containerLogInfo) : World :=
  { w with fs := (newContainerLog p os w.fs c).2, calls := w.calls ++ [c] }

/-- `newContainer`: the observation of one inspected container. -/
def newContainer (p : Pilot) (os : OS) (w : World) (container : ContainerJSON) : World :=
  if container.State.Status ≠ "running" then w
  else if container.Path = "/pause" then
    let topic := topicOf container.Config.Labels
    match w.containerLogs container.Name with
    | some c =>
      let w1 :=
        if topic ≠ "" then invokeNewContainerLog p os w { c with logTopic := topic }
        else w
      { w1 with containerLogs := w1.containerLogs.delete container.Name }
    | none =>
      let c : containerLogInfo := { containerId := "", logPath := "", logTopic := topic }
      { w with containerLogs := w.containerLogs.set container.Name c }
  else
    match w.containerLogs container.Name with
    | some c =>
      let w1 :=
        if c.logTopic ≠ "" then
          let w2 := invokeNewContainerLog p os w
            { c with containerId := container.ID, logPath := container.LogPath }
          { w2 with containerLogs := w2.containerLogs.delete container.Name }
        else w
      { w1 with containerLogs := w1.containerLogs.delete container.Name }
    | none =>
      let c : containerLogInfo :=
        { containerId := container.ID, logPath := container.LogPath, logTopic := "" }
      { w with containerLogs := w.containerLogs.set container.Name c }

/-! ## Bootstrap scan and event handling -/

/-- The loop of `cleanConfigs` over the listed names; `filepath.Join(confDir, name)`
is `confDir/name` for the single-element names that `Readdirnames` returns. -/
def cleanNames (os : OS) (confDir : String) : List String → FileSystem → error × FileSystem
  | [], fs => (none, fs)
  | name :: names, fs =>
    let path := confDir ++ "/" ++ name
    match Stat fs path with
    | (_, some err) => (some err, fs)
    | (isRegular, none) =>
      if isRegular then
        match Remove os fs path with
        | (some err, fs') => (some err, fs')
        | (none, fs') => cleanNames os confDir names fs'
      else cleanNames os confDir names fs

/-- `cleanConfigs`: delete every regular file listed in the `conf.d` directory. -/
def cleanConfigs (os : OS) (fs : FileSystem) : error × FileSystem :=
  let confDir := FLUENTD_CONF_HOME ++ "/conf.d"
  match os.openFault confDir with
  | some err => (some err, fs)
  | none =>
    match os.Readdirnames fs confDir with
    | (_, some err) => (some err, fs)
    | (names, none) => cleanNames os confDir names fs

/-- The `for _, c := range containers` loop of `processAllContainers`. -/
def processContainers (p : Pilot) (os : OS) : List Container → World → error × World
  | [], w => (none, w)
  | c :: cs, w =>
    if c.State = "removing" then processContainers p os cs w
    else
      match p.dockerClient.ContainerInspect c.ID with
      | (_, some err) => (some ("获取容器信息失败：" ++ c.ID ++ ", " ++ err), w)
      | (containerJSON, none) => processContainers p os cs (newContainer p os w containerJSON)

/-- `processAllContainers`: list, clean the old artifacts, observe every listed container. -/
def processAllContainers (p : Pilot) (os : OS) (w : World) : error × World :=
  match p.dockerClient.ContainerList with
  | (_, some err) => (some ("获取容器列表失败：" ++ err), w)
  | (containers, none) =>
    match cleanConfigs os w.fs with
    | (some err, fs') => (some ("清理老的配置文件失败：" ++ err), { w with fs := fs' })
    | (none, fs') => processContainers p os containers { w with fs := fs' }

/-- `processEvent`: a "running" event observes the container unless its
artifact exists; a "destroy" event removes the artifact and drops the error of
`delContainer`. -/
def processEvent (p : Pilot) (os : OS) (w : World) (msg : Message) : error × World :=
  let containerId := msg.ActorID
  if msg.Action = "running" then
    if existsConf w.fs containerId then (none, w)
    else
      match p.dockerClient.ContainerInspect containerId with
      | (_, some err) => (some ("获取容器信息失败：" ++ containerId ++ ", " ++ err), w)
      | (containerJSON, none) => (none, newContainer p os w containerJSON)
  else if msg.Action = "destroy" then
    (none, { w with fs := (delContainer os w.fs containerId).2 })
  else (none, w)

/-! ## Concrete instances -/

/-- A template that prints the two context entries, one per line. -/
def tplLines : Template :=
  ⟨fun context => (String.join (context.map fun kv => kv.1 ++ " " ++ kv.2 ++ "\n"), none)⟩

/-- A template whose execution always fails. -/
def tplBroken : Template :=
  ⟨fun _ => ("", some "template: fluentd: can't evaluate field")⟩

/-- An operating system that refuses nothing and lists an empty `conf.d`. -/
def osOk : OS :=
  { writeFault := fun _ => none
    removeFault := fun _ => none
    openFault := fun _ => none
    Readdirnames := fun _ _ => ([], none) }

/-- The state at start-up: empty table, empty file system, no call made. -/
def emptyWorld : World :=
  { containerLogs := fun _ => none, fs := fun _ => none, calls := [] }

/-- A running `/pause` container named `name` with the given labels. -/
def pauseContainer (id name : String) (labels : List (String × String)) : ContainerJSON :=
  { ID := id, Path := "/pause", Name := name, LogPath := "/var/log/" ++ id ++ ".log"
    State := ⟨"running"⟩, Config := ⟨labels⟩ }

/-- A running workload container named `name`. -/
def appContainer (id name logPath : String) : ContainerJSON :=
  { ID := id, Path := "/bin/app", Name := name, LogPath := logPath
    State := ⟨"running"⟩, Config := ⟨[]⟩ }

/-- Scenario A: the infrastructure container of `podA`, topic `svc-a`. -/
def infraA : ContainerJSON := pauseContainer "i1" "podA" [("logtopic", "svc-a")]

/-- Scenario A: the workload container of `podA`. -/
def workloadA : ContainerJSON := appContainer "c1" "podA" "/var/log/c1.log"

/-- Scenario B: the infrastructure container of `podB`, with an empty topic label. -/
def infraB : ContainerJSON := pauseContainer "i2" "podB" [("logtopic", "")]

/-- Scenario B: the workload container of `podB`. -/
def workloadB : ContainerJSON := appContainer "c2" "podB" "/var/log/c2.log"

/-- A second workload container observed under the name `podA`. -/
def workloadA2 : ContainerJSON := appContainer "c7" "podA" "/var/log/c7.log"

/-- A runtime with three containers: the infrastructure and the workload
container of `podA`, and a third one whose inspection fails. -/
def clientThree : Client :=
  { ContainerList := ([⟨"i1", "running"⟩, ⟨"c1", "running"⟩, ⟨"x9", "exited"⟩], none)
    ContainerInspect := fun id =>
      if id = "i1" then (infraA, none)
      else if id = "c1" then (workloadA, none)
      else (appContainer "" "" "", some "No such container") }

/-- A pilot with the line template and the three-container runtime. -/
def pilotLines : Pilot := ⟨tplLines, clientThree⟩

/-- A pilot whose template fails to execute. -/
def pilotBroken : Pilot := ⟨tplBroken, clientThree⟩

/-! ## Auxiliary facts -/

theorem GoMap.delete_set_of_absent {V : Type} (m : GoMap V) (k : String) (v : V)
    (h : m k = none) : (m.set k v).delete k = m := by
  funext k'
  by_cases hk : k' = k
  · subst hk; simp [GoMap.delete, h]
  · simp [GoMap.delete, GoMap.set, hk]

theorem GoMap.delete_delete {V : Type} (m : GoMap V) (k : String) :
    (m.delete k).delete k = m.delete k := by
  funext k'
  by_cases hk : k' = k <;> simp [GoMap.delete, hk]

/-- The label loop started from any value of `topic`. -/
theorem foldl_topic_of_mem (labels : List (String × String)) (t init : String)
    (hkeys : (labels.map Prod.fst).Nodup) (hmem : (LABEL_LOGS, t) ∈ labels) :
    labels.foldl (fun topic kv => if kv.1 = LABEL_LOGS then kv.2 else topic) init = t := by
  induction labels generalizing init with
  | nil => simp at hmem
  | cons kv rest ih =>
    simp only [List.map_cons, List.nodup_cons] at hkeys
    simp only [List.foldl_cons]
    rcases List.mem_cons.mp hmem with h | h
    · subst h
      simp only [if_true]
      have hno : ∀ x ∈ rest, x.1 ≠ LABEL_LOGS := by
        intro x hx hx1
        apply hkeys.1
        simpa [hx1] using List.mem_map_of_mem Prod.fst hx
      clear ih hmem hkeys
      induction rest generalizing t with
      | nil => rfl
      | cons y ys ihy =>
        have hy : y.1 ≠ LABEL_LOGS := hno y (List.mem_cons_self _ _)
        simp only [List.foldl_cons, hy, if_false]
        exact ihy t (fun x hx => hno x (List.mem_cons_of_mem _ hx))
    · exact ih _ hkeys.2 h

theorem topicOf_of_mem (labels : List (String × String)) (t : String)
    (hkeys : (labels.map Prod.fst).Nodup) (hmem : (LABEL_LOGS, t) ∈ labels) :
    topicOf labels = t :=
  foldl_topic_of_mem labels t "" hkeys hmem

theorem topicOf_of_empty (labels : List (String × String))
    (h : ∀ v, (LABEL_LOGS, v) ∈ labels → v = "") : topicOf labels = "" := by
  unfold topicOf
  induction labels with
  | nil => rfl
  | cons kv rest ih =>
    simp only [List.foldl_cons]
    by_cases hk : kv.1 = LABEL_LOGS
    · have hv : kv.2 = "" := h kv.2 (by rw [← hk]; exact List.mem_cons_self _ _)
      simp only [hk, if_true, hv]
      exact ih (fun v hv => h v (List.mem_cons_of_mem _ hv))
    · simp only [hk, if_false]
      exact ih (fun v hv => h v (List.mem_cons_of_mem _ hv))

/-! ## The four cases of an observation of a running container -/

theorem newContainer_infra_absent (p : Pilot) (os : OS) (w : World) (container : ContainerJSON)
    (hrun : container.State.Status = "running") (hpath : container.Path = "/pause")
    (habs : w.containerLogs container.Name = none) :
    newContainer p os w container =
      { w with containerLogs :=
          (w.containerLogs.set container.Name ⟨"", "", topicOf container.Config.Labels⟩) } := by
  simp [newContainer, hrun, hpath, habs]

theorem newContainer_infra_present (p : Pilot) (os : OS) (w : World) (container : ContainerJSON)
    (c : containerLogInfo)
    (hrun : container.State.Status = "running") (hpath : container.Path = "/pause")
    (hpres : w.containerLogs container.Name = some c) :
    newContainer p os w container =
      if topicOf container.Config.Labels ≠ "" then
        { invokeNewContainerLog p os w { c with logTopic := topicOf container.Config.Labels } with
          containerLogs := w.containerLogs.delete container.Name }
      else { w with containerLogs := w.containerLogs.delete container.Name } := by
  by_cases h : topicOf container.Config.Labels = "" <;>
    simp [newContainer, hrun, hpath, hpres, h, invokeNewContainerLog]

theorem newContainer_workload_absent (p : Pilot) (os : OS) (w : World) (container : ContainerJSON)
    (hrun : container.State.Status = "running") (hpath : container.Path ≠ "/pause")
    (habs : w.containerLogs container.Name = none) :
    newContainer p os w container =
      { w with containerLogs :=
          (w.containerLogs.set container.Name ⟨container.ID, container.LogPath, ""⟩) } := by
  simp [newContainer, hrun, hpath, habs]

theorem newContainer_workload_present (p : Pilot) (os : OS) (w : World)
    (container : ContainerJSON) (c : containerLogInfo)
    (hrun : container.State.Status = "running") (hpath : container.Path ≠ "/pause")
    (hpres : w.containerLogs container.Name = some c) :
    newContainer p os w container =
      if c.logTopic ≠ "" then
        { invokeNewContainerLog p os w
            { c with containerId := container.ID, logPath := container.LogPath } with
          containerLogs := w.containerLogs.delete container.Name }
      else { w with containerLogs := w.containerLogs.delete container.Name } := by
  by_cases h : c.logTopic = "" <;>
    simp [newContainer, hrun, hpath, hpres, h, invokeNewContainerLog, GoMap.delete_delete]

/-- An observation of a running container under a name that has a record
deletes the record and touches no other entry. -/
theorem observe_existing_record (p : Pilot) (os : OS) (w : World)
    (container : ContainerJSON) (r : containerLogInfo)
    (hrun : container.State.Status = "running")
    (hrec : w.containerLogs container.Name = some r) :
    (newContainer p os w container).containerLogs container.Name = none ∧
    ∀ k, k ≠ container.Name →
      (newContainer p os w container).containerLogs k = w.containerLogs k := by
  by_cases hpath : container.Path = "/pause"
  · rw [newContainer_infra_present p os w container r hrun hpath hrec]
    split <;> simp +contextual [GoMap.delete]
  · rw [newContainer_workload_present p os w container r hrun hpath hrec]
    split <;> simp +contextual [GoMap.delete]

/-- A list with an element satisfying `P` splits at the first such element. -/
theorem exists_first_split {α : Type} (P : α → Prop) (l : List α) (h : ∃ x ∈ l, P x) :
    ∃ pre c post, l = pre ++ c :: post ∧ P c ∧ ∀ x ∈ pre, ¬ P x := by
  induction l with
  | nil => simp at h
  | cons a as ih =>
    by_cases ha : P a
    · exact ⟨[], a, as, rfl, ha, by simp⟩
    · have hrest : ∃ x ∈ as, P x := by
        obtain ⟨x, hx, hPx⟩ := h
        rcases List.mem_cons.mp hx with hxa | hxas
        · exact absurd (hxa ▸ hPx) ha
        · exact ⟨x, hxas, hPx⟩
      obtain ⟨pre, c, post, hsplit, hc, hpre⟩ := ih hrest
      refine ⟨a :: pre, c, post, by rw [hsplit]; rfl, hc, ?_⟩
      intro x hx
      rcases List.mem_cons.mp hx with hxa | hxpre
      · rw [hxa]; exact ha
      · exact hpre x hxpre

/-- The bootstrap loop runs through a prefix whose inspections all succeed and
continues with the rest of the list from the state reached. -/
theorem processContainers_append (p : Pilot) (os : OS) (pre rest : List Container) (w : World)
    (hpre : ∀ x ∈ pre, x.State ≠ "removing" → (p.dockerClient.ContainerInspect x.ID).2 = none) :
    (processContainers p os pre w).1 = none ∧
    processContainers p os (pre ++ rest) w =
      processContainers p os rest (processContainers p os pre w).2 := by
  induction pre generalizing w with
  | nil => exact ⟨rfl, rfl⟩
  | cons x xs ih =>
    have hxs : ∀ y ∈ xs, y.State ≠ "removing" →
        (p.dockerClient.ContainerInspect y.ID).2 = none :=
      fun y hy => hpre y (List.mem_cons_of_mem _ hy)
    by_cases hx : x.State = "removing"
    · simp only [List.cons_append, processContainers, hx, if_true]
      exact ih w hxs
    · have hok := hpre x (List.mem_cons_self _ _) hx
      rcases hins : p.dockerClient.ContainerInspect x.ID with ⟨cj, e⟩
      rw [hins] at hok
      simp only at hok
      subst hok
      simp only [List.cons_append, processContainers, hx, if_false, hins]
      exact ih _ hxs

/-- The bootstrap loop stops with an error, in the state it has reached, at a
container that is not being removed and whose inspection fails. -/
theorem processContainers_inspect_error (p : Pilot) (os : OS) (c : Container)
    (post : List Container) (w : World) (hstate : c.State ≠ "removing")
    (hfail : (p.dockerClient.ContainerInspect c.ID).2 ≠ none) :
    (processContainers p os (c :: post) w).1 ≠ none ∧
    (processContainers p os (c :: post) w).2 = w := by
  rcases hins : p.dockerClient.ContainerInspect c.ID with ⟨cj, e⟩
  rw [hins] at hfail
  cases e with
  | none => exact absurd rfl hfail
  | some err => simp [processContainers, hstate, hins]

/-! ## Pairing -/

/-- C1: pairing is order-independent.  For a group name `g` without a pending
record, a non-empty topic `t`, a running infrastructure container (path
`/pause`, name `g`, label `logtopic = t`) and a running workload container
(name `g`, id `c`, log path `lp`), observing infrastructure then workload, or
workload then infrastructure, adds exactly one `newContainerLog` call, with the
identity `(c, lp, t)` in both orders, ends in the same table, which is the
initial one and has no entry for `g`, and ends in the same file system. -/
theorem newContainer_pairing_order_independent (p : Pilot) (os : OS) (w : World)
    (infra workload : ContainerJSON) (g t c lp : String)
    (hfree : w.containerLogs g = none) (ht : t ≠ "")
    (hiRun : infra.State.Status = "running") (hiPath : infra.Path = "/pause")
    (hiName : infra.Name = g)
    (hkeys : (infra.Config.Labels.map Prod.fst).Nodup)
    (hlabel : (LABEL_LOGS, t) ∈ infra.Config.Labels)
    (hwRun : workload.State.Status = "running") (hwPath : workload.Path ≠ "/pause")
    (hwName : workload.Name = g) (hwId : workload.ID = c) (hwLog : workload.LogPath = lp) :
    (newContainer p os (newContainer p os w infra) workload).calls = w.calls ++ [⟨c, lp, t⟩] ∧
    (newContainer p os (newContainer p os w workload) infra).calls = w.calls ++ [⟨c, lp, t⟩] ∧
    (newContainer p os (newContainer p os w infra) workload).containerLogs =
      (newContainer p os (newContainer p os w workload) infra).containerLogs ∧
    (newContainer p os (newContainer p os w infra) workload).containerLogs = w.containerLogs ∧
    (newContainer p os (newContainer p os w infra) workload).containerLogs g = none ∧
    (newContainer p os (newContainer p os w infra) workload).fs =
      (newContainer p os (newContainer p os w workload) infra).fs := by
  have htopic : topicOf infra.Config.Labels = t := topicOf_of_mem _ _ hkeys hlabel
  have hi1 := newContainer_infra_absent p os w infra hiRun hiPath (by rw [hiName]; exact hfree)
  have hw1 := newContainer_workload_absent p os w workload hwRun hwPath
    (by rw [hwName]; exact hfree)
  have hw2 := newContainer_workload_present p os (newContainer p os w infra) workload
    ⟨"", "", t⟩ hwRun hwPath (by rw [hi1, hwName, hiName, htopic]; simp [GoMap.set])
  have hi2 := newContainer_infra_present p os (newContainer p os w workload) infra
    ⟨c, lp, ""⟩ hiRun hiPath (by rw [hw1, hwName, hiName, hwId, hwLog]; simp [GoMap.set])
  rw [hw2, hi2, hi1, hw1, htopic, hiName, hwName, hwId, hwLog]
  simp only [ne_eq, ht, not_false_eq_true, if_true, invokeNewContainerLog,
    GoMap.delete_set_of_absent _ _ _ hfree, hfree, and_self]

/-- C1 on Scenario A: `podA` pairs to `(c1, /var/log/c1.log, svc-a)` in both orders. -/
theorem newContainer_pairing_order_independent_witness :
    (newContainer pilotLines osOk (newContainer pilotLines osOk emptyWorld infraA) workloadA).calls
      = [⟨"c1", "/var/log/c1.log", "svc-a"⟩] ∧
    (newContainer pilotLines osOk (newContainer pilotLines osOk emptyWorld workloadA) infraA).calls
      = [⟨"c1", "/var/log/c1.log", "svc-a"⟩] ∧
    (newContainer pilotLines osOk (newContainer pilotLines osOk emptyWorld infraA)
        workloadA).containerLogs =
      (newContainer pilotLines osOk (newContainer pilotLines osOk emptyWorld workloadA)
        infraA).containerLogs ∧
    (newContainer pilotLines osOk (newContainer pilotLines osOk emptyWorld infraA)
        workloadA).containerLogs = emptyWorld.containerLogs ∧
    (newContainer pilotLines osOk (newContainer pilotLines osOk emptyWorld infraA)
        workloadA).containerLogs "podA" = none ∧
    (newContainer pilotLines osOk (newContainer pilotLines osOk emptyWorld infraA) workloadA).fs =
      (newContainer pilotLines osOk (newContainer pilotLines osOk emptyWorld workloadA) infraA).fs :=
  newContainer_pairing_order_independent pilotLines osOk emptyWorld infraA workloadA
    "podA" "svc-a" "c1" "/var/log/c1.log"
    rfl (by decide) rfl rfl rfl (by decide) (by decide) rfl (by decide) rfl rfl rfl

/-- C2: empty-topic suppression.  For a group name `g` without a pending
record, a running workload container named `g` and a running infrastructure
container named `g` whose labels lack `logtopic` or map it to the empty string,
observing the two in either order makes no `newContainerLog` call, writes
nothing, and leaves no entry for `g` in the table. -/
theorem newContainer_empty_topic_suppressed (p : Pilot) (os : OS) (w : World)
    (infra workload : ContainerJSON) (g : String)
    (hfree : w.containerLogs g = none)
    (hiRun : infra.State.Status = "running") (hiPath : infra.Path = "/pause")
    (hiName : infra.Name = g)
    (hlabel : ∀ v, (LABEL_LOGS, v) ∈ infra.Config.Labels → v = "")
    (hwRun : workload.State.Status = "running") (hwPath : workload.Path ≠ "/pause")
    (hwName : workload.Name = g) :
    (newContainer p os (newContainer p os w infra) workload).calls = w.calls ∧
    (newContainer p os (newContainer p os w workload) infra).calls = w.calls ∧
    (newContainer p os (newContainer p os w infra) workload).fs = w.fs ∧
    (newContainer p os (newContainer p os w workload) infra).fs = w.fs ∧
    (newContainer p os (newContainer p os w infra) workload).containerLogs g = none ∧
    (newContainer p os (newContainer p os w workload) infra).containerLogs g = none := by
  have htopic : topicOf infra.Config.Labels = "" := topicOf_of_empty _ hlabel
  have hi1 := newContainer_infra_absent p os w infra hiRun hiPath (by rw [hiName]; exact hfree)
  have hw1 := newContainer_workload_absent p os w workload hwRun hwPath
    (by rw [hwName]; exact hfree)
  have hw2 := newContainer_workload_present p os (newContainer p os w infra) workload
    ⟨"", "", ""⟩ hwRun hwPath (by rw [hi1, hwName, hiName, htopic]; simp [GoMap.set])
  have hi2 := newContainer_infra_present p os (newContainer p os w workload) infra
    ⟨workload.ID, workload.LogPath, ""⟩ hiRun hiPath
    (by rw [hw1, hwName, hiName]; simp [GoMap.set])
  rw [hw2, hi2, hi1, hw1, htopic, hiName, hwName]
  simp [GoMap.delete]

/-- C2 on Scenario B: `podB`, whose topic label is empty, is never materialized. -/
theorem newContainer_empty_topic_suppressed_witness :
    (newContainer pilotLines osOk (newContainer pilotLines osOk emptyWorld infraB) workloadB).calls
      = [] ∧
    (newContainer pilotLines osOk (newContainer pilotLines osOk emptyWorld workloadB) infraB).calls
      = [] ∧
    (newContainer pilotLines osOk (newContainer pilotLines osOk emptyWorld infraB) workloadB).fs
      = emptyWorld.fs ∧
    (newContainer pilotLines osOk (newContainer pilotLines osOk emptyWorld workloadB) infraB).fs
      = emptyWorld.fs ∧
    (newContainer pilotLines osOk (newContainer pilotLines osOk emptyWorld infraB)
        workloadB).containerLogs "podB" = none ∧
    (newContainer pilotLines osOk (newContainer pilotLines osOk emptyWorld workloadB)
        infraB).containerLogs "podB" = none :=
  newContainer_empty_topic_suppressed pilotLines osOk emptyWorld infraB workloadB "podB"
    rfl rfl rfl rfl
    (by intro v hv; simpa [infraB, pauseContainer, LABEL_LOGS] using hv)
    rfl (by decide) rfl

/-- C3: the table holds only pending pairings.  When a running container of
either role is observed under a group name that already has a record, the
resulting table has no entry for that name, whatever was emitted and whatever
`newContainerLog` returned, and the entries of all other names are unchanged. -/
theorem newContainer_existing_record_deleted (p : Pilot) (os : OS) (w : World)
    (container : ContainerJSON) (r : containerLogInfo)
    (hrun : container.State.Status = "running")
    (hrec : w.containerLogs container.Name = some r) :
    (newContainer p os w container).containerLogs container.Name = none ∧
    ∀ k, k ≠ container.Name →
      (newContainer p os w container).containerLogs k = w.containerLogs k := by
  by_cases hpath : container.Path = "/pause"
  · rw [newContainer_infra_present p os w container r hrun hpath hrec]
    by_cases htopic : topicOf container.Config.Labels = ""
    · simp +contextual [htopic, GoMap.delete]
    · simp +contextual [htopic, GoMap.delete]
  · rw [newContainer_workload_present p os w container r hrun hpath hrec]
    by_cases htopic : r.logTopic = ""
    · simp +contextual [htopic, GoMap.delete]
    · simp +contextual [htopic, GoMap.delete]

/-- C3 on Scenario A: the infrastructure observation that completes `podA` deletes its record. -/
theorem newContainer_existing_record_deleted_witness :
    (newContainer pilotLines osOk (newContainer pilotLines osOk emptyWorld workloadA)
        infraA).containerLogs infraA.Name = none ∧
    ∀ k, k ≠ infraA.Name →
      (newContainer pilotLines osOk (newContainer pilotLines osOk emptyWorld workloadA)
        infraA).containerLogs k =
      (newContainer pilotLines osOk emptyWorld workloadA).containerLogs k :=
  newContainer_existing_record_deleted pilotLines osOk
    (newContainer pilotLines osOk emptyWorld workloadA) infraA ⟨"c1", "/var/log/c1.log", ""⟩
    rfl rfl

/-! ## The materializer -/

/-- C5, as stated, fails: with no artifact at `pathOf "c1"`, `delContainer`
returns the not-exist error of `os.Remove`. -/
theorem delContainer_absent_reports_error :
    emptyWorld.fs (pathOf "c1") = none ∧
    (delContainer osOk emptyWorld.fs "c1").1 = some ErrNotExist ∧
    (delContainer osOk emptyWorld.fs "c1").1 ≠ none :=
  ⟨rfl, rfl, by simp [delContainer, Remove, emptyWorld]⟩

/-- C5, amended: when no artifact exists at `pathOf id`, `delContainer id`
leaves the file system unchanged and returns the not-exist error of
`os.Remove`; `processEvent` on a "destroy" event for `id` drops that error,
returns none and leaves the whole state unchanged. -/
theorem destroy_absent_artifact (p : Pilot) (os : OS) (w : World) (id : String)
    (habs : w.fs (pathOf id) = none) :
    delContainer os w.fs id = (some ErrNotExist, w.fs) ∧
    processEvent p os w ⟨id, "destroy"⟩ = (none, w) := by
  have hdel : delContainer os w.fs id = (some ErrNotExist, w.fs) := by
    simp [delContainer, Remove, habs]
  refine ⟨hdel, ?_⟩
  simp [processEvent, hdel]

/-- C5, amended, for the identifier `c1` on an empty file system. -/
theorem destroy_absent_artifact_witness :
    delContainer osOk emptyWorld.fs "c1" = (some ErrNotExist, emptyWorld.fs) ∧
    processEvent pilotLines osOk emptyWorld ⟨"c1", "destroy"⟩ = (none, emptyWorld) :=
  destroy_absent_artifact pilotLines osOk emptyWorld "c1" rfl

/-- C6: render failure is atomic.  If `render` fails for an identity then
`newContainerLog` returns that error and the file system, including any
artifact already at `pathOf containerId`, is unchanged. -/
theorem newContainerLog_render_failure (p : Pilot) (os : OS) (fs : FileSystem)
    (logInfo : containerLogInfo) (err : String) (hfail : (render p logInfo).2 = some err) :
    newContainerLog p os fs logInfo = (some err, fs) := by
  unfold newContainerLog
  rcases hr : render p logInfo with ⟨txt, e⟩
  rw [hr] at hfail
  simp only at hfail
  subst hfail
  rfl

/-- C6 with a failing template: the artifact of `c1` written before is left as it was. -/
theorem newContainerLog_render_failure_witness :
    newContainerLog pilotBroken osOk
        (newContainerLog pilotLines osOk emptyWorld.fs ⟨"c1", "/var/log/c1.log", "svc-a"⟩).2
        ⟨"c1", "/var/log/c1.log", "svc-b"⟩ =
      (some "template: fluentd: can't evaluate field",
        (newContainerLog pilotLines osOk emptyWorld.fs ⟨"c1", "/var/log/c1.log", "svc-a"⟩).2) :=
  newContainerLog_render_failure pilotBroken osOk _ ⟨"c1", "/var/log/c1.log", "svc-b"⟩ _ rfl

/-- C7: materialization is idempotent.  When rendering succeeds and the write
to `pathOf containerId` is not refused, `newContainerLog` succeeds, a second
call with the same identity succeeds and leaves the file system of the first
call; that file system holds at `pathOf containerId` one regular file whose
content is exactly the rendered text, whatever was there before, and agrees
with the initial one on every other path; the rendered text depends on
`logPath` and `logTopic` only. -/
theorem newContainerLog_idempotent (p : Pilot) (os : OS) (fs : FileSystem)
    (logInfo : containerLogInfo) (hrender : (render p logInfo).2 = none)
    (hwrite : os.writeFault (pathOf logInfo.containerId) = none) :
    (newContainerLog p os fs logInfo).1 = none ∧
    newContainerLog p os (newContainerLog p os fs logInfo).2 logInfo =
      newContainerLog p os fs logInfo ∧
    (newContainerLog p os fs logInfo).2 (pathOf logInfo.containerId) =
      some (Node.regular (render p logInfo).1) ∧
    (∀ q, q ≠ pathOf logInfo.containerId → (newContainerLog p os fs logInfo).2 q = fs q) ∧
    (∀ other : containerLogInfo, other.logPath = logInfo.logPath →
      other.logTopic = logInfo.logTopic → render p other = render p logInfo) := by
  have hform : ∀ fs0 : FileSystem, newContainerLog p os fs0 logInfo =
      (none, fun q => if q = pathOf logInfo.containerId
        then some (Node.regular (render p logInfo).1) else fs0 q) := by
    intro fs0
    unfold newContainerLog
    rcases hr : render p logInfo with ⟨txt, e⟩
    rw [hr] at hrender
    simp only at hrender
    subst hrender
    simp [WriteFile, hwrite]
  refine ⟨by rw [hform], ?_, by rw [hform]; simp, ?_, ?_⟩
  · rw [hform fs, hform]
    congr 1
    funext q
    by_cases hq : q = pathOf logInfo.containerId <;> simp [hq]
  · intro q hq
    rw [hform]
    simp [hq]
  · intro other h1 h2
    simp [render, h1, h2]

/-- C7 for the identity `(c1, /var/log/c1.log, svc-a)` on an empty file system. -/
theorem newContainerLog_idempotent_witness :
    (newContainerLog pilotLines osOk emptyWorld.fs ⟨"c1", "/var/log/c1.log", "svc-a"⟩).1 = none ∧
    newContainerLog pilotLines osOk
        (newContainerLog pilotLines osOk emptyWorld.fs ⟨"c1", "/var/log/c1.log", "svc-a"⟩).2
        ⟨"c1", "/var/log/c1.log", "svc-a"⟩ =
      newContainerLog pilotLines osOk emptyWorld.fs ⟨"c1", "/var/log/c1.log", "svc-a"⟩ ∧
    (newContainerLog pilotLines osOk emptyWorld.fs ⟨"c1", "/var/log/c1.log", "svc-a"⟩).2
        (pathOf "c1") =
      some (Node.regular (render pilotLines ⟨"c1", "/var/log/c1.log", "svc-a"⟩).1) ∧
    (∀ q, q ≠ pathOf "c1" →
      (newContainerLog pilotLines osOk emptyWorld.fs ⟨"c1", "/var/log/c1.log", "svc-a"⟩).2 q =
        emptyWorld.fs q) ∧
    (∀ other : containerLogInfo, other.logPath = "/var/log/c1.log" →
      other.logTopic = "svc-a" →
      render pilotLines other = render pilotLines ⟨"c1", "/var/log/c1.log", "svc-a"⟩) :=
  newContainerLog_idempotent pilotLines osOk emptyWorld.fs ⟨"c1", "/var/log/c1.log", "svc-a"⟩
    rfl rfl

/-- C8: the artifact path is deterministic and collision-free: `pathOf id` is
`/etc/fluentd/conf.d/` followed by `id` followed by `.conf`, and `pathOf` is
injective. -/
theorem pathOf_deterministic_injective :
    (∀ id : String, pathOf id = "/etc/fluentd/conf.d/" ++ id ++ ".conf") ∧
    Function.Injective pathOf := by
  have hform : ∀ id : String, pathOf id = "/etc/fluentd/conf.d/" ++ id ++ ".conf" := by
    intro id
    rfl
  refine ⟨hform, ?_⟩
  intro a b hab
  rw [hform a, hform b] at hab
  have hdata := congrArg String.data hab
  simp only [String.data_append] at hdata
  have h1 := List.append_cancel_right hdata
  have h2 := List.append_cancel_left h1
  exact String.ext h2

/-! ## Re-observation -/

/-- C10, as stated, fails: after a workload container created the record of
`podA`, observing a second workload container under `podA` leaves no record
for `podA`, not a record with the fields of the second container. -/
theorem reobservation_leaves_no_record :
    (newContainer pilotLines osOk emptyWorld workloadA).containerLogs "podA" =
      some ⟨"c1", "/var/log/c1.log", ""⟩ ∧
    (newContainer pilotLines osOk (newContainer pilotLines osOk emptyWorld workloadA)
      workloadA2).containerLogs "podA" = none ∧
    (newContainer pilotLines osOk (newContainer pilotLines osOk emptyWorld workloadA)
      workloadA2).containerLogs "podA" ≠ some ⟨"c7", "/var/log/c7.log", ""⟩ := by
  refine ⟨by decide, by decide, by decide⟩

/-- C10, amended: when a running container observed under a free group name
`g` has created the pending record of `g`, observing another running container
of the same role under `g` deletes that record: the table then has no entry
for `g` (so at most one), the entries of the other names are those of the
initial table, and when the role is workload no `newContainerLog` call is made
and the file system is unchanged. -/
theorem newContainer_reobservation_same_role (p : Pilot) (os : OS) (w : World)
    (first second : ContainerJSON) (g : String)
    (hfree : w.containerLogs g = none)
    (h1run : first.State.Status = "running") (h1name : first.Name = g)
    (h2run : second.State.Status = "running") (h2name : second.Name = g)
    (hrole : first.Path = "/pause" ↔ second.Path = "/pause") :
    (∃ r, (newContainer p os w first).containerLogs g = some r) ∧
    (newContainer p os (newContainer p os w first) second).containerLogs g = none ∧
    (∀ k, k ≠ g →
      (newContainer p os (newContainer p os w first) second).containerLogs k =
        w.containerLogs k) ∧
    (first.Path ≠ "/pause" →
      (newContainer p os (newContainer p os w first) second).calls = w.calls ∧
      (newContainer p os (newContainer p os w first) second).fs = w.fs) := by
  have hrec : ∃ r, (newContainer p os w first).containerLogs g = some r ∧
      (first.Path ≠ "/pause" → r.logTopic = "") ∧
      (newContainer p os w first).calls = w.calls ∧ (newContainer p os w first).fs = w.fs ∧
      ∀ k, k ≠ g → (newContainer p os w first).containerLogs k = w.containerLogs k := by
    by_cases hp : first.Path = "/pause"
    · rw [newContainer_infra_absent p os w first h1run hp (by rw [h1name]; exact hfree)]
      exact ⟨⟨"", "", topicOf first.Config.Labels⟩, by simp [GoMap.set, h1name],
        fun h => absurd hp h, rfl, rfl, fun k hk => by simp [GoMap.set, h1name, hk]⟩
    · rw [newContainer_workload_absent p os w first h1run hp (by rw [h1name]; exact hfree)]
      exact ⟨⟨first.ID, first.LogPath, ""⟩, by simp [GoMap.set, h1name],
        fun _ => rfl, rfl, rfl, fun k hk => by simp [GoMap.set, h1name, hk]⟩
  obtain ⟨r, hr, htopic, hcalls, hfs, hothers⟩ := hrec
  have hdel := observe_existing_record p os (newContainer p os w first)
    second r h2run (by rw [h2name]; exact hr)
  refine ⟨⟨r, hr⟩, by rw [← h2name]; exact hdel.1, ?_, ?_⟩
  · intro k hk
    rw [hdel.2 k (by rw [h2name]; exact hk), hothers k hk]
  · intro hp
    have hp2 : second.Path ≠ "/pause" := fun h => hp (hrole.mpr h)
    rw [newContainer_workload_present p os _ second r h2run hp2 (by rw [h2name]; exact hr)]
    simp [htopic hp, hcalls, hfs]

/-- C10, amended, for two workload containers observed under `podA`. -/
theorem newContainer_reobservation_same_role_witness :
    (∃ r, (newContainer pilotLines osOk emptyWorld workloadA).containerLogs "podA" = some r) ∧
    (newContainer pilotLines osOk (newContainer pilotLines osOk emptyWorld workloadA)
      workloadA2).containerLogs "podA" = none ∧
    (∀ k, k ≠ "podA" →
      (newContainer pilotLines osOk (newContainer pilotLines osOk emptyWorld workloadA)
        workloadA2).containerLogs k = emptyWorld.containerLogs k) ∧
    (workloadA.Path ≠ "/pause" →
      (newContainer pilotLines osOk (newContainer pilotLines osOk emptyWorld workloadA)
        workloadA2).calls = emptyWorld.calls ∧
      (newContainer pilotLines osOk (newContainer pilotLines osOk emptyWorld workloadA)
        workloadA2).fs = emptyWorld.fs) :=
  newContainer_reobservation_same_role pilotLines osOk emptyWorld workloadA workloadA2 "podA"
    rfl rfl rfl rfl rfl (by decide)

/-! ## Bootstrap -/

/-- C9, as stated, fails: the runtime lists the two containers of `podA` and a
third container whose inspection fails; `processAllContainers` returns the
inspection error, yet the pass has called `newContainerLog` for `c1` and the
artifact of `c1` is on disk. -/
theorem bootstrap_failure_keeps_earlier_artifacts :
    pilotLines.dockerClient.ContainerList =
      ([⟨"i1", "running"⟩, ⟨"c1", "running"⟩, ⟨"x9", "exited"⟩], none) ∧
    (pilotLines.dockerClient.ContainerInspect "x9").2 = some "No such container" ∧
    (processAllContainers pilotLines osOk emptyWorld).1 =
      some "获取容器信息失败：x9, No such container" ∧
    (processAllContainers pilotLines osOk emptyWorld).2.calls =
      [⟨"c1", "/var/log/c1.log", "svc-a"⟩] ∧
    emptyWorld.fs (pathOf "c1") = none ∧
    (processAllContainers pilotLines osOk emptyWorld).2.fs (pathOf "c1") =
      some (Node.regular "logPath /var/log/c1.log\nlogTopic svc-a\n") := by
  refine ⟨rfl, rfl, by decide, by decide, rfl, by decide⟩

/-- C9, amended: the bootstrap pass is fail-fast.  If `ContainerInspect` fails
for some listed container that is not being removed, `processAllContainers`
returns an error; the list splits at the first such container `c` as
`pre ++ c :: post`, and when the clean-up succeeded the loop over `pre` alone
ends without error in the final state of the pass: neither `c` nor any
container of `post` is observed, while whatever the observations of `pre`
materialized stays. -/
theorem processAllContainers_fail_fast (p : Pilot) (os : OS) (w : World)
    (containers : List Container)
    (hlist : p.dockerClient.ContainerList = (containers, none))
    (hfail : ∃ x ∈ containers,
      x.State ≠ "removing" ∧ (p.dockerClient.ContainerInspect x.ID).2 ≠ none) :
    (processAllContainers p os w).1 ≠ none ∧
    ∃ pre c post, containers = pre ++ c :: post ∧
      c.State ≠ "removing" ∧ (p.dockerClient.ContainerInspect c.ID).2 ≠ none ∧
      (∀ x ∈ pre, x.State ≠ "removing" → (p.dockerClient.ContainerInspect x.ID).2 = none) ∧
      ∀ fs', cleanConfigs os w.fs = (none, fs') →
        (processContainers p os pre { w with fs := fs' }).1 = none ∧
        (processAllContainers p os w).2 =
          (processContainers p os pre { w with fs := fs' }).2 := by
  obtain ⟨pre, c, post, hsplit, ⟨hstate, hinspect⟩, hfirst⟩ :=
    exists_first_split
      (fun x : Container =>
        x.State ≠ "removing" ∧ (p.dockerClient.ContainerInspect x.ID).2 ≠ none)
      containers hfail
  have hpre : ∀ x ∈ pre, x.State ≠ "removing" →
      (p.dockerClient.ContainerInspect x.ID).2 = none := by
    intro x hx hxs
    by_contra hne
    exact hfirst x hx ⟨hxs, hne⟩
  have hloop : ∀ w0 : World,
      (processContainers p os containers w0).1 ≠ none ∧
      (processContainers p os containers w0).2 = (processContainers p os pre w0).2 := by
    intro w0
    rw [hsplit, (processContainers_append p os pre (c :: post) w0 hpre).2]
    exact processContainers_inspect_error p os c post _ hstate hinspect
  constructor
  · unfold processAllContainers
    rw [hlist]
    rcases hclean : cleanConfigs os w.fs with ⟨e, fs'⟩
    cases e with
    | none => exact (hloop _).1
    | some err => simp
  · refine ⟨pre, c, post, hsplit, hstate, hinspect, hpre, ?_⟩
    intro fs' hclean
    refine ⟨(processContainers_append p os pre (c :: post) _ hpre).1, ?_⟩
    unfold processAllContainers
    rw [hlist]
    simp only [hclean]
    exact (hloop _).2

/-- C9, amended, on the three-container runtime, where `x9` cannot be inspected. -/
theorem processAllContainers_fail_fast_witness :
    (processAllContainers pilotLines osOk emptyWorld).1 ≠ none ∧
    ∃ pre c post,
      [(⟨"i1", "running"⟩ : Container), ⟨"c1", "running"⟩, ⟨"x9", "exited"⟩] =
        pre ++ c :: post ∧
      c.State ≠ "removing" ∧ (pilotLines.dockerClient.ContainerInspect c.ID).2 ≠ none ∧
      (∀ x ∈ pre, x.State ≠ "removing" →
        (pilotLines.dockerClient.ContainerInspect x.ID).2 = none) ∧
      ∀ fs', cleanConfigs osOk emptyWorld.fs = (none, fs') →
        (processContainers pilotLines osOk pre { emptyWorld with fs := fs' }).1 = none ∧
        (processAllContainers pilotLines osOk emptyWorld).2 =
          (processContainers pilotLines osOk pre { emptyWorld with fs := fs' }).2 :=
  processAllContainers_fail_fast pilotLines osOk emptyWorld
    [⟨"i1", "running"⟩, ⟨"c1", "running"⟩, ⟨"x9", "exited"⟩] rfl
    ⟨⟨"x9", "exited"⟩, by simp, by decide, by decide⟩

/-! ## Incomplete identities -/

/-- C4 is violated by the code: observing the infrastructure container of
`podA` twice, from an empty table, passes to `newContainerLog` an identity with
empty `containerId` and `logPath`, which no workload observation contributed,
and writes the artifact `/etc/fluentd/conf.d/.conf`; the record found by the
second observation holds no workload field. -/
theorem infra_reobserved_emits_incomplete_identity :
    (newContainer pilotLines osOk emptyWorld infraA).containerLogs "podA" =
      some ⟨"", "", "svc-a"⟩ ∧
    (newContainer pilotLines osOk (newContainer pilotLines osOk emptyWorld infraA)
      infraA).calls = [⟨"", "", "svc-a"⟩] ∧
    (newContainer pilotLines osOk (newContainer pilotLines osOk emptyWorld infraA)
      infraA).fs "/etc/fluentd/conf.d/.conf" =
        some (Node.regular "logPath \nlogTopic svc-a\n") := by
  refine ⟨by decide, by decide, by decide⟩

end FluentdPilot
